import Mathlib

/-!
Shallow embedding of the image-generation protocol adapter.

The source is a Deno HTTP service that translates OpenAI-style chat
completion requests into native image-generation calls against two
backends ("ark" and "siliconflow") and reshapes the responses.  The
request bodies and provider responses are dynamically-typed JSON, so the
embedding models the JSON subset the code inspects, and every duck-typed
field probe of the source (`typeof x === "string"`, optional chaining,
truthiness tests) is translated explicitly.

Numbers are modelled as `Rat`: the source only compares and selects
numbers (`Math.max`/`Math.min`), never performs rounding arithmetic on
them, so rational arithmetic is exact on every representable input.
-/

/-- JSON values, as inspected by the adapter's duck-typed field probes. -/
inductive Json where
  | null : Json
  | bool : Bool → Json
  | num : Rat → Json
  | str : String → Json
  | arr : List Json → Json
  | obj : List (String × Json) → Json

/-- Property access `j?.k`: a string-keyed field of an object, `none`
(JS `undefined`) on arrays, primitives and `null`. -/
def Json.getField (j : Json) (k : String) : Option Json :=
  match j with
  | .obj fields => fields.lookup k
  | _ => none

/-- JS test `typeof v === "object" && v`: objects and arrays pass; `null`
has typeof "object" but is falsy, primitives have a different typeof. -/
def Json.isObjLike : Json → Bool
  | .obj _ => true
  | .arr _ => true
  | _ => false

/-- Whether an optional JSON value is a string (`typeof v === "string"`). -/
def isStrField : Option Json → Bool
  | some (.str _) => true
  | _ => false

/-- Whether an optional JSON value is a number (`typeof v === "number"`). -/
def isNumField : Option Json → Bool
  | some (.num _) => true
  | _ => false

/-- Whether an optional JSON value is an array (`Array.isArray(v)`). -/
def isArrField : Option Json → Bool
  | some (.arr _) => true
  | _ => false

/-- JS `s.trim()`: strip leading and trailing whitespace.  Implemented
over the character list so that concrete instances evaluate. -/
def jsTrim (s : String) : String :=
  ⟨((s.data.dropWhile Char.isWhitespace).reverse.dropWhile Char.isWhitespace).reverse⟩

/-- JS `s.startsWith(pat)`. -/
def jsStartsWith (s pat : String) : Bool :=
  List.isPrefixOf pat.data s.data

/-- Message content: either a plain string or an array of JSON chunks
(`string | Array<Record<string, unknown>>`). -/
inductive Content where
  | str : String → Content
  | arr : List Json → Content

/-- A chat message: `{ role: string, content: string | chunk[] }`. -/
structure ChatMessage where
  role : String
  content : Content

/-- The interpreter's output record
`{ prompt: string, dataUrls: string[], httpImages: string[] }`. -/
structure ProviderPayload where
  prompt : String
  dataUrls : List String
  httpImages : List String
deriving Repr, DecidableEq

/-- The text carried by a chunk when it is a well-formed text chunk:
`type === "text" && typeof chunk.text === "string"`, trimmed. -/
def chunkText (c : Json) : Option String :=
  match c.getField "type", c.getField "text" with
  | some (.str "text"), some (.str t) => some (jsTrim t)
  | _, _ => none

/-- The url carried by a chunk when it is a well-formed image chunk:
`type === "image_url" && typeof chunk.image_url === "object" &&
chunk.image_url && typeof chunk.image_url.url === "string"`. -/
def chunkImageUrl (c : Json) : Option String :=
  match c.getField "type", c.getField "image_url" with
  | some (.str "image_url"), some iu =>
    if iu.isObjLike then
      match iu.getField "url" with
      | some (.str u) => some u
      | _ => none
    else none
  | _, _ => none

/-- The url a chunk contributes to `dataUrls`: a well-formed image url
starting with `"data:"`. -/
def chunkDataUrl (c : Json) : Option String :=
  match chunkImageUrl c with
  | some u => if jsStartsWith u "data:" then some u else none
  | none => none

/-- The url a chunk contributes to `httpImages`: a well-formed image url
not starting with `"data:"`. -/
def chunkHttpUrl (c : Json) : Option String :=
  match chunkImageUrl c with
  | some u => if jsStartsWith u "data:" then none else some u
  | none => none

/-- One iteration of the inner chunk loop of `coerceMessagePayload`:
a text chunk overwrites the candidate prompt, an image chunk is pushed
onto `dataUrls` or `httpImages` by its `"data:"` prefix; anything else
leaves the payload unchanged. -/
def processChunk (p : ProviderPayload) (c : Json) : ProviderPayload :=
  let p1 := match chunkText c with
    | some t => { p with prompt := t }
    | none => p
  match chunkImageUrl c with
  | some url =>
    if jsStartsWith url "data:" then { p1 with dataUrls := p1.dataUrls ++ [url] }
    else { p1 with httpImages := p1.httpImages ++ [url] }
  | none => p1

/-- Processing one user message's content: a plain string overwrites the
prompt (trimmed); a chunk array is folded through `processChunk`. -/
def processContent (p : ProviderPayload) : Content → ProviderPayload
  | .str s => { p with prompt := jsTrim s }
  | .arr chunks => chunks.foldl processChunk p

/-- The backward message scan of `coerceMessagePayload`: the input list
here is already reversed (most recent message first).  Non-user messages
are skipped; after a user message is processed the scan stops as soon as
the prompt is non-empty (`if (payload.prompt) break`). -/
def coerceLoop : ProviderPayload → List ChatMessage → ProviderPayload
  | p, [] => p
  | p, m :: rest =>
    if m.role == "user" then
      let p' := processContent p m.content
      if p'.prompt == "" then coerceLoop p' rest else p'
    else coerceLoop p rest

/-- Function `coerceMessagePayload`: scan messages from most recent to oldest;
`none` models the thrown prompt-not-found error when the resulting
prompt is empty. -/
def coerceMessagePayload (messages : List ChatMessage) : Option ProviderPayload :=
  let p := coerceLoop ⟨"", [], []⟩ messages.reverse
  if p.prompt == "" then none else some p

/-- The two backend providers. -/
inductive Provider where
  | ark
  | siliconflow
deriving Repr, DecidableEq

/-- Contiguous-sublist test on character lists, used to model
JS `String.prototype.includes`. -/
def charsContain (needle : List Char) : List Char → Bool
  | [] => needle.isEmpty
  | c :: cs => List.isPrefixOf needle (c :: cs) || charsContain needle cs

/-- JS `s.includes(pat)`: contiguous substring containment. -/
def stringIncludes (s pat : String) : Bool :=
  charsContain pat.data s.data

/-- Function `detectProvider`: `!model` (absent or empty string) routes to ark;
the `Qwen/` or `Kwai-Kolors/` prefixes or a `siliconflow` substring
route to siliconflow; everything else to ark. -/
def detectProvider (model : Option String) : Provider :=
  match model with
  | none => .ark
  | some m =>
    if m == "" then .ark
    else if jsStartsWith m "Qwen/" || jsStartsWith m "Kwai-Kolors/"
        || stringIncludes m "siliconflow" then .siliconflow
    else .ark

/-- JS `Math.min` on two (non-NaN) numbers. -/
def jsMin (a b : Rat) : Rat := if a ≤ b then a else b

/-- JS `Math.max` on two (non-NaN) numbers. -/
def jsMax (a b : Rat) : Rat := if a ≤ b then b else a

/-- Source `clamp(value, min, max) = Math.max(min, Math.min(max, value))`. -/
def clamp (value lo hi : Rat) : Rat := jsMax lo (jsMin hi value)

/-- The recognized fields of the inbound OpenAI-style request body.
Each optional field is `some` exactly when the JSON body carries the
field with the type the code's `typeof` guard expects; `none` covers
both an absent field and a wrongly-typed one, which the guards treat
alike. -/
structure OpenAIRequest where
  model : Option String := none
  messages : List ChatMessage := []
  n : Option Rat := none
  size : Option String := none
  seed : Option Rat := none
  image_size : Option String := none
  negative_prompt : Option String := none
  num_inference_steps : Option Rat := none
  guidance_scale : Option Rat := none
  cfg : Option Rat := none

/-- The JSON body built by `callArk` for the ark endpoint.
`sequential_image_generation_options` holds `max_images` when the
options object is attached. -/
structure ArkRequest where
  model : String
  prompt : String
  image : List String
  sequential_image_generation : String
  sequential_image_generation_options : Option Rat
  response_format : String
  size : String
  seed : Rat
  stream : Bool
  watermark : Bool
deriving Repr, DecidableEq

/-- The request-building prefix of `callArk`.  Note the JS truthiness
test `requestBody.n ? clamp(requestBody.n, 1, 4) : undefined`: a zero
count is falsy and behaves like an absent count. -/
def buildArkRequest (requestBody : OpenAIRequest) (payload : ProviderPayload) : ArkRequest :=
  let arkModel := requestBody.model.getD "doubao-seedream-4-0-250828"
  let size := requestBody.size.getD "1024x1024"
  let n : Option Rat := match requestBody.n with
    | some k => if k ≠ 0 then some (clamp k 1 4) else none
    | none => none
  { model := arkModel
    prompt := payload.prompt
    image := payload.httpImages
    sequential_image_generation := if n.isSome then "auto" else "disabled"
    sequential_image_generation_options := n
    response_format := "b64_json"
    size := size
    seed := requestBody.seed.getD (-1)
    stream := false
    watermark := false }

/-- The JSON body built by `callSiliconFlow` for the siliconflow
endpoint.  `none` fields are omitted from the serialized body. -/
structure SfRequest where
  model : String
  prompt : String
  batch_size : Rat
  image_size : String
  negative_prompt : Option String
  seed : Option Rat
  num_inference_steps : Option Rat
  guidance_scale : Option Rat
  cfg : Option Rat
  image : Option String
deriving Repr, DecidableEq

/-- The request-building prefix of `callSiliconFlow`.  Note the JS
truthiness test `if (negative) body.negative_prompt = negative`: an
empty negative prompt string is falsy and is dropped. -/
def buildSiliconFlowRequest (requestBody : OpenAIRequest) (payload : ProviderPayload) : SfRequest :=
  let model := requestBody.model.getD "Qwen/Qwen-Image"
  let n := clamp (requestBody.n.getD 1) 1 4
  let overrideSize : Option String := match requestBody.size with
    | some s => some s
    | none => requestBody.image_size
  { model := model
    prompt := payload.prompt
    batch_size := n
    image_size :=
      overrideSize.getD (if jsStartsWith model "Kwai-Kolors/" then "1024x1024" else "1328x1328")
    negative_prompt := match requestBody.negative_prompt with
      | some s => if s ≠ "" then some s else none
      | none => none
    seed := requestBody.seed.map (fun v => clamp v 0 9999999999)
    num_inference_steps := requestBody.num_inference_steps.map (fun v => clamp v 1 100)
    guidance_scale := requestBody.guidance_scale.map (fun v => clamp v 0 20)
    cfg := requestBody.cfg.map (fun v => clamp v 0.1 20)
    image := payload.dataUrls.head? }

/-- A normalized image reference `{ url }` as placed under `image_url`
in both providers' normalized entries. -/
structure ImageRef where
  url : String
deriving Repr, DecidableEq

/-- A normalized ark image entry `{ image_url: { url }, size? }`. -/
structure ArkImage where
  image_url : ImageRef
  size : Option String
deriving Repr, DecidableEq

/-- A normalized siliconflow image entry `{ image_url: { url } }`. -/
structure SfImage where
  image_url : ImageRef
deriving Repr, DecidableEq

/-- The url candidate both normalizers compute for a raw image entry:
a string `url` field wins; otherwise a string `b64_json` field is
wrapped as `data:image/png;base64,<payload>`. -/
def rawImageUrl (img : Json) : Option String :=
  match img.getField "url" with
  | some (.str u) => some u
  | _ =>
    match img.getField "b64_json" with
    | some (.str b) => some ("data:image/png;base64," ++ b)
    | _ => none

/-- The url both normalizers keep for a raw image entry: the candidate,
unless it is falsy (`if (!url) return undefined`) — an empty-string
candidate is dropped. -/
def decodeImageUrl (img : Json) : Option String :=
  match rawImageUrl img with
  | some u => if u ≠ "" then some u else none
  | none => none

/-- The `size` passthrough of an ark image entry:
`typeof img?.size === "string" ? img.size : undefined`. -/
def imageEntrySize (img : Json) : Option String :=
  match img.getField "size" with
  | some (.str s) => some s
  | _ => none

/-- One entry of `callArk`'s normalized image list, `none` when the
entry is dropped by `.filter(Boolean)`. -/
def arkImageEntry (img : Json) : Option ArkImage :=
  (decodeImageUrl img).map (fun url =>
    { image_url := { url := url }
      size := imageEntrySize img })

/-- Normalized image list of `callArk`: the `data` array mapped and
filtered, `[]` when `arkData?.data` is not an array. -/
def arkImages (arkData : Json) : List ArkImage :=
  match arkData.getField "data" with
  | some (.arr xs) => xs.filterMap arkImageEntry
  | _ => []

/-- One entry of `callSiliconFlow`'s normalized image list. -/
def sfImageEntry (img : Json) : Option SfImage :=
  (decodeImageUrl img).map (fun url => { image_url := { url := url } })

/-- Normalized image list of `callSiliconFlow`: the `images` array mapped
and filtered, `[]` when `data?.images` is not an array. -/
def sfImages (respData : Json) : List SfImage :=
  match respData.getField "images" with
  | some (.arr xs) => xs.filterMap sfImageEntry
  | _ => []

/-- The result record `callArk` returns to the handler. -/
structure ArkResult where
  data : List ArkImage
  usage : Option Json
  created : Rat
  model : String

/-- The response-normalizing suffix of `callArk`.  `nowSec` stands for
`Math.floor(Date.now() / 1000)`, the wall-clock seconds at response
handling; `arkModel` is the model chosen when the request was built. -/
def normalizeArkResponse (arkModel : String) (nowSec : Rat) (arkData : Json) : ArkResult :=
  { data := arkImages arkData
    usage := arkData.getField "usage"
    created := match arkData.getField "created" with
      | some (.num c) => c
      | _ => nowSec
    model := arkModel }

/-- The result record `callSiliconFlow` returns to the handler. -/
structure SfResult where
  data : List SfImage
  created : Rat
  model : String
  timings : Option Json
  seed : Option Json

/-- The response-normalizing suffix of `callSiliconFlow`: `created` is
always the wall-clock seconds, never read from the response. -/
def normalizeSfResponse (model : String) (nowSec : Rat) (respData : Json) : SfResult :=
  { data := sfImages respData
    created := nowSec
    model := model
    timings := respData.getField "timings"
    seed := respData.getField "seed" }

/-! ### Specification-level description of the backward message scan

`promptOfContent`, `contributes` and `scanned` describe, per message,
what the scan of `coerceMessagePayload` computes; the lemmas below prove
that the loop realizes this description. -/

/-- The candidate prompt a single user message's content produces when
the incoming candidate is empty: a plain string is trimmed, a chunk
array yields its last well-formed text chunk (trimmed), else `""`. -/
def promptOfContent : Content → String
  | .str s => jsTrim s
  | .arr chunks => chunks.foldl (fun acc c => (chunkText c).getD acc) ""

/-- Whether a message ends the backward scan: a user message whose own
content yields a non-empty candidate prompt. -/
def contributes (m : ChatMessage) : Bool :=
  m.role == "user" && promptOfContent m.content != ""

/-- The `data:` image urls a single content value contributes. -/
def contentDataUrls : Content → List String
  | .str _ => []
  | .arr chunks => chunks.filterMap chunkDataUrl

/-- The non-`data:` image urls a single content value contributes. -/
def contentHttpUrls : Content → List String
  | .str _ => []
  | .arr chunks => chunks.filterMap chunkHttpUrl

/-- The `data:` image urls a message contributes to the scan (non-user
messages are skipped and contribute nothing). -/
def msgDataUrls (m : ChatMessage) : List String :=
  if m.role == "user" then contentDataUrls m.content else []

/-- The non-`data:` image urls a message contributes to the scan. -/
def msgHttpUrls (m : ChatMessage) : List String :=
  if m.role == "user" then contentHttpUrls m.content else []

/-- The messages the backward scan actually processes (the input being
in most-recent-first order): everything up to and including the first
contributing message. -/
def scanned : List ChatMessage → List ChatMessage
  | [] => []
  | m :: rest => if contributes m then [m] else m :: scanned rest

lemma processChunk_prompt (p : ProviderPayload) (c : Json) :
    (processChunk p c).prompt = (chunkText c).getD p.prompt := by
  unfold processChunk
  cases h1 : chunkText c <;> cases h2 : chunkImageUrl c <;>
    simp only [Option.getD] <;> first | rfl | (split <;> rfl)

lemma processChunk_dataUrls (p : ProviderPayload) (c : Json) :
    (processChunk p c).dataUrls = p.dataUrls ++ (chunkDataUrl c).toList := by
  unfold processChunk chunkDataUrl
  cases h1 : chunkText c <;> cases h2 : chunkImageUrl c <;>
    simp only [h2] <;> first | simp | (split <;> simp)

lemma processChunk_httpImages (p : ProviderPayload) (c : Json) :
    (processChunk p c).httpImages = p.httpImages ++ (chunkHttpUrl c).toList := by
  unfold processChunk chunkHttpUrl
  cases h1 : chunkText c <;> cases h2 : chunkImageUrl c <;>
    simp only [h2] <;> first | simp | (split <;> simp)

lemma foldlChunks_prompt (chunks : List Json) (p : ProviderPayload) :
    (chunks.foldl processChunk p).prompt
      = chunks.foldl (fun acc c => (chunkText c).getD acc) p.prompt := by
  induction chunks generalizing p with
  | nil => rfl
  | cons c cs ih =>
    simp only [List.foldl_cons, ih, processChunk_prompt]

lemma foldlChunks_dataUrls (chunks : List Json) (p : ProviderPayload) :
    (chunks.foldl processChunk p).dataUrls
      = p.dataUrls ++ chunks.filterMap chunkDataUrl := by
  induction chunks generalizing p with
  | nil => simp
  | cons c cs ih =>
    simp only [List.foldl_cons, ih, processChunk_dataUrls, List.filterMap_cons]
    cases chunkDataUrl c <;> simp

lemma foldlChunks_httpImages (chunks : List Json) (p : ProviderPayload) :
    (chunks.foldl processChunk p).httpImages
      = p.httpImages ++ chunks.filterMap chunkHttpUrl := by
  induction chunks generalizing p with
  | nil => simp
  | cons c cs ih =>
    simp only [List.foldl_cons, ih, processChunk_httpImages, List.filterMap_cons]
    cases chunkHttpUrl c <;> simp

lemma processContent_prompt (p : ProviderPayload) (c : Content) (hp : p.prompt = "") :
    (processContent p c).prompt = promptOfContent c := by
  cases c with
  | str s => rfl
  | arr chunks => simp only [processContent, promptOfContent, foldlChunks_prompt, hp]

lemma processContent_dataUrls (p : ProviderPayload) (c : Content) :
    (processContent p c).dataUrls = p.dataUrls ++ contentDataUrls c := by
  cases c with
  | str s => simp [processContent, contentDataUrls]
  | arr chunks => simp only [processContent, contentDataUrls, foldlChunks_dataUrls]

lemma processContent_httpImages (p : ProviderPayload) (c : Content) :
    (processContent p c).httpImages = p.httpImages ++ contentHttpUrls c := by
  cases c with
  | str s => simp [processContent, contentHttpUrls]
  | arr chunks => simp only [processContent, contentHttpUrls, foldlChunks_httpImages]

/-- Master characterization of the backward scan: starting from an empty
candidate prompt, the loop's prompt is the candidate of the first
contributing message (or `""`), and the image lists collect, in order,
the contributions of every scanned message. -/
lemma coerceLoop_fields (msgs : List ChatMessage) (p : ProviderPayload)
    (hp : p.prompt = "") :
    (coerceLoop p msgs).prompt
        = ((msgs.find? contributes).map (fun m => promptOfContent m.content)).getD "" ∧
      (coerceLoop p msgs).dataUrls
        = p.dataUrls ++ (scanned msgs).flatMap msgDataUrls ∧
      (coerceLoop p msgs).httpImages
        = p.httpImages ++ (scanned msgs).flatMap msgHttpUrls := by
  induction msgs generalizing p with
  | nil =>
    refine ⟨?_, ?_, ?_⟩ <;> simp [coerceLoop, scanned, hp]
  | cons m rest ih =>
    by_cases hrole : m.role == "user"
    · have hcp : (processContent p m.content).prompt = promptOfContent m.content :=
        processContent_prompt p m.content hp
      by_cases hpr : promptOfContent m.content = ""
      · have hcontr : contributes m = false := by
          simp [contributes, hpr]
        have hbreak : ((processContent p m.content).prompt == "") = true := by
          simp [hcp, hpr]
        obtain ⟨ih1, ih2, ih3⟩ := ih (processContent p m.content) (hcp.trans hpr)
        refine ⟨?_, ?_, ?_⟩
        · rw [coerceLoop, if_pos hrole, if_pos hbreak, ih1,
            List.find?_cons_of_neg _ (by simp [hcontr])]
        · rw [coerceLoop, if_pos hrole, if_pos hbreak, ih2, processContent_dataUrls]
          simp [scanned, hcontr, msgDataUrls, hrole]
        · rw [coerceLoop, if_pos hrole, if_pos hbreak, ih3, processContent_httpImages]
          simp [scanned, hcontr, msgHttpUrls, hrole]
      · have hcontr : contributes m = true := by
          simp [contributes, hrole, hpr]
        have hbreak : ((processContent p m.content).prompt == "") = false := by
          simp [hcp, hpr]
        refine ⟨?_, ?_, ?_⟩
        · rw [coerceLoop, if_pos hrole, if_neg (by simp [hbreak]), hcp,
            List.find?_cons_of_pos _ hcontr]
          rfl
        · rw [coerceLoop, if_pos hrole, if_neg (by simp [hbreak]), processContent_dataUrls]
          simp [scanned, hcontr, msgDataUrls, hrole]
        · rw [coerceLoop, if_pos hrole, if_neg (by simp [hbreak]), processContent_httpImages]
          simp [scanned, hcontr, msgHttpUrls, hrole]
    · have hcontr : contributes m = false := by
        simp only [contributes, Bool.and_eq_false_iff]
        exact Or.inl (by simpa using hrole)
      obtain ⟨ih1, ih2, ih3⟩ := ih p hp
      refine ⟨?_, ?_, ?_⟩
      · rw [coerceLoop, if_neg (by simpa using hrole), ih1,
          List.find?_cons_of_neg _ (by simp [hcontr])]
      · rw [coerceLoop, if_neg (by simpa using hrole), ih2]
        simp [scanned, hcontr, msgDataUrls, hrole]
      · rw [coerceLoop, if_neg (by simpa using hrole), ih3]
        simp [scanned, hcontr, msgHttpUrls, hrole]

lemma contributes_elim (m : ChatMessage) (h : contributes m = true) :
    m.role = "user" ∧ promptOfContent m.content ≠ "" := by
  simpa [contributes] using h

lemma promptOfContent_arr_empty (chunks : List Json)
    (h : ∀ c ∈ chunks, chunkText c = none) :
    promptOfContent (Content.arr chunks) = "" := by
  simp only [promptOfContent]
  induction chunks with
  | nil => rfl
  | cons c cs ih =>
    rw [List.foldl_cons, h c (by simp)]
    exact ih fun c hc => h c (List.mem_cons_of_mem _ hc)

lemma coerce_eq_some_of_find? (messages : List ChatMessage) (m : ChatMessage)
    (hfind : messages.reverse.find? contributes = some m) :
    ∃ p, coerceMessagePayload messages = some p ∧
      p.prompt = promptOfContent m.content := by
  obtain ⟨h1, _, _⟩ := coerceLoop_fields messages.reverse ⟨"", [], []⟩ rfl
  rw [hfind] at h1
  have hne : promptOfContent m.content ≠ "" :=
    (contributes_elim m (List.find?_some hfind)).2
  refine ⟨coerceLoop ⟨"", [], []⟩ messages.reverse, ?_, by simpa using h1⟩
  simp only [coerceMessagePayload]
  rw [if_neg (by simp [h1, hne])]

/-- C1, as the spec states it, fails on a user message whose string
content is non-empty but all whitespace: the trimmed prompt is empty,
so extraction throws instead of succeeding. -/
theorem c1_counterexample :
    (" " : String) ≠ "" ∧
    coerceMessagePayload [⟨"user", Content.str " "⟩] = none :=
  ⟨by decide, by decide⟩

/-- C1 (amended: the user message's string content must be non-empty
after trimming): for every message history containing at least one user
message whose string content trims to a non-empty string,
`coerceMessagePayload` succeeds, and the returned prompt is the trimmed
candidate of the most recent user message that contributes a non-empty
prompt (`find?` over the reversed history scans most-recent-first). -/
theorem c1_prompt_from_nearest_contributing_user (messages : List ChatMessage)
    (h : ∃ m ∈ messages, m.role = "user" ∧
        ∃ s, m.content = Content.str s ∧ jsTrim s ≠ "") :
    ∃ p m, coerceMessagePayload messages = some p ∧
      messages.reverse.find? contributes = some m ∧
      m.role = "user" ∧ promptOfContent m.content ≠ "" ∧
      p.prompt = promptOfContent m.content := by
  obtain ⟨mw, hmem, hrole, s, hcont, hs⟩ := h
  have hcw : contributes mw = true := by
    simp [contributes, hrole, hcont, promptOfContent, hs]
  have hsome : (messages.reverse.find? contributes).isSome :=
    List.find?_isSome.mpr ⟨mw, by simpa using hmem, hcw⟩
  obtain ⟨m, hfind⟩ := Option.isSome_iff_exists.mp hsome
  obtain ⟨hm1, hm2⟩ := contributes_elim m (List.find?_some hfind)
  obtain ⟨p, hp, hprompt⟩ := coerce_eq_some_of_find? messages m hfind
  exact ⟨p, m, hp, hfind, hm1, hm2, hprompt⟩

/-- Witness for C1 at a concrete one-message history. -/
theorem c1_witness :
    ∃ p m, coerceMessagePayload [⟨"user", Content.str " hi "⟩] = some p ∧
      ([⟨"user", Content.str " hi "⟩] : List ChatMessage).reverse.find? contributes
        = some m ∧
      m.role = "user" ∧ promptOfContent m.content ≠ "" ∧
      p.prompt = promptOfContent m.content :=
  c1_prompt_from_nearest_contributing_user _
    ⟨⟨"user", Content.str " hi "⟩, by simp, rfl, " hi ", rfl, by decide⟩

/-- C2: provider routing is a pure function of the model field — absent
routes to ark, a `Qwen/` or `Kwai-Kolors/` prefix or a `siliconflow`
substring routes to siliconflow, every other string (including the empty
string, which the code's falsiness test also sends to ark) routes to
ark. -/
theorem c2_provider_routing :
    detectProvider none = Provider.ark ∧
    ∀ m : String, detectProvider (some m) =
      if jsStartsWith m "Qwen/" || jsStartsWith m "Kwai-Kolors/"
          || stringIncludes m "siliconflow"
      then Provider.siliconflow else Provider.ark := by
  refine ⟨rfl, fun m => ?_⟩
  by_cases hm : m = ""
  · subst hm; decide
  · simp only [detectProvider]
    rw [if_neg (by simpa using hm)]

/-- C3: over any chunk sequence, the chunk loop appends exactly the
well-formed `data:`-prefixed image urls to `dataUrls` and the other
well-formed image urls to `httpImages`, in original order (`filterMap`
keeps the sequence order), and a malformed chunk (neither a usable text
chunk nor a usable image chunk) is skipped without effect or error. -/
theorem c3_image_chunk_partition (chunks : List Json) (p : ProviderPayload) :
    (chunks.foldl processChunk p).dataUrls
      = p.dataUrls ++ chunks.filterMap chunkDataUrl ∧
    (chunks.foldl processChunk p).httpImages
      = p.httpImages ++ chunks.filterMap chunkHttpUrl ∧
    ∀ c, chunkText c = none → chunkImageUrl c = none → processChunk p c = p := by
  refine ⟨foldlChunks_dataUrls chunks p, foldlChunks_httpImages chunks p, ?_⟩
  intro c h1 h2
  simp [processChunk, h1, h2]

/-- Witness for C3: a `null` chunk is malformed and is skipped. -/
theorem c3_witness :
    processChunk ⟨"x", [], []⟩ Json.null = ⟨"x", [], []⟩ :=
  (c3_image_chunk_partition [] ⟨"x", [], []⟩).2.2 Json.null rfl rfl

/-- C4: a history with no user message, or whose user messages carry
only chunks that are neither usable text nor usable image references,
produces no payload — extraction fails. -/
theorem c4_no_usable_prompt_fails (messages : List ChatMessage)
    (h : (∀ m ∈ messages, m.role ≠ "user") ∨
         (∀ m ∈ messages, m.role = "user" →
            ∃ chunks, m.content = Content.arr chunks ∧
              ∀ c ∈ chunks, chunkText c = none ∧ chunkImageUrl c = none)) :
    coerceMessagePayload messages = none := by
  have hall : ∀ m ∈ messages.reverse, ¬ contributes m = true := by
    intro m hm hc
    obtain ⟨hrole, hne⟩ := contributes_elim m hc
    have hm' : m ∈ messages := by simpa using hm
    rcases h with h | h
    · exact h m hm' hrole
    · obtain ⟨chunks, hcont, hchunks⟩ := h m hm' hrole
      refine hne ?_
      rw [hcont]
      exact promptOfContent_arr_empty chunks (fun c hc => (hchunks c hc).1)
  have hfind : messages.reverse.find? contributes = none :=
    List.find?_eq_none.mpr hall
  obtain ⟨h1, _, _⟩ := coerceLoop_fields messages.reverse ⟨"", [], []⟩ rfl
  rw [hfind] at h1
  simp only [coerceMessagePayload]
  rw [if_pos (by simp [h1])]

/-- Witness for C4 at a history with no user message. -/
theorem c4_witness :
    coerceMessagePayload [⟨"assistant", Content.str "hello"⟩] = none :=
  c4_no_usable_prompt_fails _ (Or.inl (by decide))

lemma find?_append_first (xs : List ChatMessage) (m0 : ChatMessage)
    (ys : List ChatMessage) (hxs : ∀ x ∈ xs, contributes x = false)
    (h0 : contributes m0 = true) :
    (xs ++ m0 :: ys).find? contributes = some m0 := by
  induction xs with
  | nil => simpa using List.find?_cons_of_pos _ h0
  | cons x xs ih =>
    rw [List.cons_append, List.find?_cons_of_neg _ (by simp [hxs x (by simp)])]
    exact ih fun x hx => hxs x (List.mem_cons_of_mem _ hx)

lemma scanned_append_first (xs : List ChatMessage) (m0 : ChatMessage)
    (ys : List ChatMessage) (hxs : ∀ x ∈ xs, contributes x = false)
    (h0 : contributes m0 = true) :
    scanned (xs ++ m0 :: ys) = xs ++ [m0] := by
  induction xs with
  | nil => simp [scanned, h0]
  | cons x xs ih =>
    rw [List.cons_append, scanned, if_neg (by simp [hxs x (by simp)]),
      ih fun x hx => hxs x (List.mem_cons_of_mem _ hx), List.cons_append]

/-- C10: when every user message more recent than `m0` contributes no
non-empty prompt but `m0` does, extraction succeeds with `m0`'s prompt
while the image references of all those more recent messages are
retained — the two image lists combine the scanned messages' images
(most recent message's images first) with `m0`'s own. -/
theorem c10_images_retained_across_messages (pre : List ChatMessage)
    (m0 : ChatMessage) (post : List ChatMessage)
    (h0 : contributes m0 = true)
    (hpost : ∀ m ∈ post, contributes m = false) :
    ∃ p, coerceMessagePayload (pre ++ m0 :: post) = some p ∧
      p.prompt = promptOfContent m0.content ∧
      p.dataUrls = post.reverse.flatMap msgDataUrls ++ msgDataUrls m0 ∧
      p.httpImages = post.reverse.flatMap msgHttpUrls ++ msgHttpUrls m0 := by
  have hrev : (pre ++ m0 :: post).reverse = post.reverse ++ m0 :: pre.reverse := by
    simp
  have hxs : ∀ x ∈ post.reverse, contributes x = false := by
    intro x hx; exact hpost x (by simpa using hx)
  have hfind : (pre ++ m0 :: post).reverse.find? contributes = some m0 := by
    rw [hrev]; exact find?_append_first _ _ _ hxs h0
  have hscan : scanned (pre ++ m0 :: post).reverse = post.reverse ++ [m0] := by
    rw [hrev]; exact scanned_append_first _ _ _ hxs h0
  obtain ⟨h1, h2, h3⟩ := coerceLoop_fields (pre ++ m0 :: post).reverse ⟨"", [], []⟩ rfl
  rw [hfind] at h1
  rw [hscan] at h2 h3
  refine ⟨coerceLoop ⟨"", [], []⟩ (pre ++ m0 :: post).reverse, ?_, by simpa using h1,
    by simpa using h2, by simpa using h3⟩
  simp only [coerceMessagePayload]
  rw [if_neg (by simp only [h1]; simp [(contributes_elim m0 h0).2])]

/-- Witness for C10: the most recent user message holds only an image
reference, the older one the text; the payload combines both. -/
theorem c10_witness :
    ∃ p, coerceMessagePayload
        ([] ++ (⟨"user", Content.str "a cat"⟩ : ChatMessage) ::
          [⟨"user", Content.arr [Json.obj [("type", Json.str "image_url"),
            ("image_url", Json.obj [("url", Json.str "https://x/1.png")])]]⟩])
        = some p ∧
      p.prompt = promptOfContent (Content.str "a cat") ∧
      p.dataUrls = ([⟨"user", Content.arr [Json.obj [("type", Json.str "image_url"),
            ("image_url", Json.obj [("url", Json.str "https://x/1.png")])]]⟩]
          : List ChatMessage).reverse.flatMap msgDataUrls
        ++ msgDataUrls ⟨"user", Content.str "a cat"⟩ ∧
      p.httpImages = ([⟨"user", Content.arr [Json.obj [("type", Json.str "image_url"),
            ("image_url", Json.obj [("url", Json.str "https://x/1.png")])]]⟩]
          : List ChatMessage).reverse.flatMap msgHttpUrls
        ++ msgHttpUrls ⟨"user", Content.str "a cat"⟩ :=
  c10_images_retained_across_messages [] ⟨"user", Content.str "a cat"⟩ _
    (by decide) (by decide)

/-- C5, as stated, fails on an empty negative prompt: the field is
present as a string in the request, but the JS truthiness test
`if (negative)` drops the empty string instead of passing it through. -/
theorem c5_counterexample :
    ({ negative_prompt := some "" } : OpenAIRequest).negative_prompt = some "" ∧
    (buildSiliconFlowRequest { negative_prompt := some "" } ⟨"a cat", [], []⟩).negative_prompt
      = none ∧
    (buildSiliconFlowRequest { negative_prompt := some "" } ⟨"a cat", [], []⟩).negative_prompt
      ≠ some "" :=
  ⟨rfl, rfl, by simp [buildSiliconFlowRequest]⟩

/-- C5 (amended: a present negative prompt is passed through unclamped
only when non-empty; an empty string is omitted): `batch_size` is the
requested count clamped to [1,4] with default 1 (so `n:10` gives 4),
and each present numeric option is independently clamped — seed to
[0, 9999999999], inference steps to [1,100], guidance scale to [0,20],
cfg scale to [0.1,20]. -/
theorem c5_sf_request_normalization (rb : OpenAIRequest) (pay : ProviderPayload) :
    (buildSiliconFlowRequest rb pay).batch_size = clamp (rb.n.getD 1) 1 4 ∧
    (buildSiliconFlowRequest rb pay).negative_prompt
      = rb.negative_prompt.bind (fun s => if s = "" then none else some s) ∧
    (buildSiliconFlowRequest rb pay).seed
      = rb.seed.map (fun v => clamp v 0 9999999999) ∧
    (buildSiliconFlowRequest rb pay).num_inference_steps
      = rb.num_inference_steps.map (fun v => clamp v 1 100) ∧
    (buildSiliconFlowRequest rb pay).guidance_scale
      = rb.guidance_scale.map (fun v => clamp v 0 20) ∧
    (buildSiliconFlowRequest rb pay).cfg
      = rb.cfg.map (fun v => clamp v 0.1 20) := by
  refine ⟨rfl, ?_, rfl, rfl, rfl, rfl⟩
  cases h : rb.negative_prompt with
  | none => simp [buildSiliconFlowRequest, h]
  | some s =>
    by_cases hs : s = "" <;> simp [buildSiliconFlowRequest, h, hs]

/-- C6, as stated, fails on a requested count of zero: `0` is falsy, so
`requestBody.n ? clamp(...) : undefined` treats it as no count and the
built request asks for single-image mode, not sequential mode with the
clamped maximum 1. -/
theorem c6_counterexample :
    ({ n := some 0 } : OpenAIRequest).n = some 0 ∧
    (buildArkRequest { n := some 0 } ⟨"a cat", [], []⟩).sequential_image_generation
      = "disabled" ∧
    (buildArkRequest { n := some 0 } ⟨"a cat", [], []⟩).sequential_image_generation_options
      = none :=
  ⟨rfl, by simp [buildArkRequest], by simp [buildArkRequest]⟩

/-- C6 (amended: a requested count takes effect only when non-zero; a
zero count behaves like an absent one): a non-zero requested count is
clamped to [1,4] and selects sequential generation mode with that
clamped maximum; an absent or zero count selects single-image mode. -/
theorem c6_ark_sequential_mode (rb : OpenAIRequest) (pay : ProviderPayload) :
    (∀ k, rb.n = some k → k ≠ 0 →
      (buildArkRequest rb pay).sequential_image_generation = "auto" ∧
      (buildArkRequest rb pay).sequential_image_generation_options
        = some (clamp k 1 4)) ∧
    (rb.n = none →
      (buildArkRequest rb pay).sequential_image_generation = "disabled" ∧
      (buildArkRequest rb pay).sequential_image_generation_options = none) ∧
    (rb.n = some 0 →
      (buildArkRequest rb pay).sequential_image_generation = "disabled" ∧
      (buildArkRequest rb pay).sequential_image_generation_options = none) := by
  refine ⟨?_, ?_, ?_⟩
  · intro k hk hne
    constructor <;> simp [buildArkRequest, hk, hne]
  · intro hk
    constructor <;> simp [buildArkRequest, hk]
  · intro hk
    constructor <;> simp [buildArkRequest, hk]

/-- Witness for C6 at a request with count 10: sequential mode with the
clamped maximum. -/
theorem c6_witness :
    (buildArkRequest { n := some 10 } ⟨"a cat", [], []⟩).sequential_image_generation
      = "auto" ∧
    (buildArkRequest { n := some 10 } ⟨"a cat", [], []⟩).sequential_image_generation_options
      = some (clamp 10 1 4) :=
  (c6_ark_sequential_mode { n := some 10 } ⟨"a cat", [], []⟩).1 10 rfl (by norm_num)

/-- C7, as stated, fails on an image entry whose `url` field is present
and a string but empty: the spec's rule (1) selects it, yet the code's
falsiness test (`if (!url) return undefined`) drops the entry — in both
providers' normalizers. -/
theorem c7_counterexample :
    (Json.obj [("url", Json.str ""), ("b64_json", Json.str "abc")]).getField "url"
      = some (Json.str "") ∧
    arkImageEntry (Json.obj [("url", Json.str ""), ("b64_json", Json.str "abc")])
      = none ∧
    sfImageEntry (Json.obj [("url", Json.str ""), ("b64_json", Json.str "abc")])
      = none :=
  ⟨rfl, by simp [arkImageEntry, decodeImageUrl, rawImageUrl, Json.getField],
    by simp [sfImageEntry, decodeImageUrl, rawImageUrl, Json.getField]⟩

/-- C7 (amended: the candidate url is the string `url` field when
present — even when empty, in which case `b64_json` is not consulted —
else the wrapped base64 payload; an entry whose candidate is missing or
empty is dropped without error): the decoding rule shared by both
providers' normalizers, and both list normalizers apply it entrywise in
order. -/
theorem c7_image_decoding :
    (∀ img u, img.getField "url" = some (Json.str u) → rawImageUrl img = some u) ∧
    (∀ img b, isStrField (img.getField "url") = false →
      img.getField "b64_json" = some (Json.str b) →
      rawImageUrl img = some ("data:image/png;base64," ++ b)) ∧
    (∀ img, isStrField (img.getField "url") = false →
      isStrField (img.getField "b64_json") = false → rawImageUrl img = none) ∧
    (∀ img u, rawImageUrl img = some u → u ≠ "" → decodeImageUrl img = some u) ∧
    (∀ img, decodeImageUrl img = none →
      arkImageEntry img = none ∧ sfImageEntry img = none) ∧
    (∀ img u, decodeImageUrl img = some u →
      arkImageEntry img
          = some { image_url := { url := u }, size := imageEntrySize img } ∧
        sfImageEntry img = some { image_url := { url := u } }) ∧
    (∀ resp xs, resp.getField "data" = some (Json.arr xs) →
      arkImages resp = xs.filterMap arkImageEntry) ∧
    (∀ resp xs, resp.getField "images" = some (Json.arr xs) →
      sfImages resp = xs.filterMap sfImageEntry) := by
  refine ⟨?_, ?_, ?_, ?_, ?_, ?_, ?_, ?_⟩
  · intro img u h
    simp [rawImageUrl, h]
  · intro img b hu hb
    unfold rawImageUrl
    split
    · next u heq => rw [heq] at hu; simp [isStrField] at hu
    · rw [hb]
  · intro img hu hb
    unfold rawImageUrl
    split
    · next u heq => rw [heq] at hu; simp [isStrField] at hu
    · split
      · next b heq => rw [heq] at hb; simp [isStrField] at hb
      · rfl
  · intro img u h hne
    simp [decodeImageUrl, h, hne]
  · intro img h
    constructor <;> simp [arkImageEntry, sfImageEntry, h]
  · intro img u h
    constructor <;> simp [arkImageEntry, sfImageEntry, h]
  · intro resp xs h
    simp [arkImages, h]
  · intro resp xs h
    simp [sfImages, h]

/-- Witness for C7: with both a remote url and a base64 payload present,
the remote url wins. -/
theorem c7_witness :
    rawImageUrl (Json.obj [("url", Json.str "https://x/1.png"),
      ("b64_json", Json.str "abc")]) = some "https://x/1.png" :=
  c7_image_decoding.1 _ "https://x/1.png" rfl

/-- C8, as stated, fails because the normalizer cannot fail at all: a
provider response with no locatable image list yields a successful
result with an empty image list, not a raised error. -/
theorem c8_counterexample :
    isArrField ((Json.obj []).getField "data") = false ∧
    (normalizeArkResponse "doubao-seedream-4-0-250828" 0 (Json.obj [])).data = [] ∧
    (normalizeArkResponse "doubao-seedream-4-0-250828" 0 (Json.obj [])).created = 0 ∧
    (normalizeArkResponse "doubao-seedream-4-0-250828" 0 (Json.obj [])).model
      = "doubao-seedream-4-0-250828" :=
  ⟨rfl, rfl, rfl, rfl⟩

/-- C8 (amended: the normalizer never fails — when the provider response
has no locatable image list it returns an empty image list, and partial
or missing optional fields never prevent a result, the normalizers
being total functions). -/
theorem c8_missing_image_list_yields_empty (model : String) (nowSec : Rat)
    (resp : Json) :
    (isArrField (resp.getField "data") = false →
      (normalizeArkResponse model nowSec resp).data = []) ∧
    (isArrField (resp.getField "images") = false →
      (normalizeSfResponse model nowSec resp).data = []) := by
  constructor
  · intro h
    simp only [normalizeArkResponse, arkImages]
    split
    · next xs heq => rw [heq] at h; simp [isArrField] at h
    · rfl
  · intro h
    simp only [normalizeSfResponse, sfImages]
    split
    · next xs heq => rw [heq] at h; simp [isArrField] at h
    · rfl

/-- Witness for C8 at a `null` response body. -/
theorem c8_witness :
    (normalizeSfResponse "Qwen/Qwen-Image" 5 Json.null).data = [] :=
  (c8_missing_image_list_yields_empty "Qwen/Qwen-Image" 5 Json.null).2 rfl

/-- C9, as stated, fails for provider B: `callSiliconFlow` always stamps
the wall-clock time, ignoring a present numeric `created` field in the
provider response. -/
theorem c9_counterexample :
    (Json.obj [("created", Json.num 99)]).getField "created"
      = some (Json.num 99) ∧
    (normalizeSfResponse "Qwen/Qwen-Image" 7
      (Json.obj [("created", Json.num 99)])).created = 7 ∧
    (normalizeSfResponse "Qwen/Qwen-Image" 7
      (Json.obj [("created", Json.num 99)])).created ≠ 99 :=
  ⟨rfl, rfl, by norm_num [normalizeSfResponse]⟩

/-- C9 (amended: only provider A uses the provider's own numeric
creation timestamp, falling back to the wall clock; provider B always
uses the wall-clock time of response handling). -/
theorem c9_created_timestamp (model : String) (nowSec : Rat) (resp : Json) :
    (∀ c, resp.getField "created" = some (Json.num c) →
      (normalizeArkResponse model nowSec resp).created = c) ∧
    (isNumField (resp.getField "created") = false →
      (normalizeArkResponse model nowSec resp).created = nowSec) ∧
    (normalizeSfResponse model nowSec resp).created = nowSec := by
  refine ⟨?_, ?_, rfl⟩
  · intro c h
    simp [normalizeArkResponse, h]
  · intro h
    simp only [normalizeArkResponse]
    split
    · next c heq => rw [heq] at h; simp [isNumField] at h
    · rfl

/-- Witness for C9: provider A keeps the response's own timestamp. -/
theorem c9_witness :
    (normalizeArkResponse "m" 3 (Json.obj [("created", Json.num 42)])).created = 42 :=
  (c9_created_timestamp "m" 3 (Json.obj [("created", Json.num 42)])).1 42 rfl
